import Mathlib

/-!
Verification of the rare-sniper NFT scanner.

Shallow embedding of the JavaScript source:
  - analyzer (normalizeNFT / countTraits / findRareNFTs),
  - the MagicEden client error handling (requestError, paginated fetch loops),
  - the cache layer (cacheExists / loadFromCache / clearCache),
  - the scheduler flag logic of index.js (main / setupIntervalRuns),
  - the seen-set dedup loop of processCollection.

Modelling conventions:
  - JavaScript numbers are modelled as exact rationals; the source
    expression parseFloat(x.toFixed(2)) is modelled as decimal rounding
    to two places with ties upward (ECMAScript toFixed picks the larger
    candidate on a tie).
  - JavaScript objects used as dictionaries are modelled as association
    lists in insertion order with first-match lookup (object keys are
    unique, later writes update in place).
  - A JS Set is modelled as a duplicate-free list grown by appending.
  - Stateful code is modelled by explicit state passing; the unbounded
    while loops of the HTTP client take explicit fuel, with none meaning
    the loop had not finished.
-/

namespace RareSniper

/-- parseFloat(x.toFixed(2)) of the source, on nonnegative values:
round to two decimal places, ties upward. -/
def roundTo2 (q : ℚ) : ℚ := (⌊q * 100 + 1/2⌋ : ℚ) / 100

/-- First-match lookup in an association list (JS object property read). -/
def alookup {β : Type} (k : String) : List (String × β) → Option β
  | [] => none
  | (k2, v) :: rest => if k2 = k then some v else alookup k rest

/-- The reason string attached to a rare trait by findRareNFTs:
either the string literal for a one-of-one trait or the
below-threshold message. -/
inductive Reason where
  | oneOfOne
  | belowThreshold
deriving DecidableEq

/-- One entry of the rarity details object built by findRareNFTs. -/
structure RarityDetail where
  value : String
  count : Nat
  percentage : ℚ
  rare : Bool
  reason : Option Reason
deriving DecidableEq

/-- A normalized NFT as produced by normalizeNFT: flattened traits plus
listing overlay fields; rarity is empty until findRareNFTs fills it. -/
structure NFT where
  mintAddress : String
  name : String := ""
  image : String := ""
  price : Option ℚ := none
  seller : Option String := none
  rarity : List (String × RarityDetail) := []
  traits : List (String × String)
deriving DecidableEq

/-- The per-value statistics record stored by countTraits. -/
structure TraitStat where
  count : Nat
  percentage : ℚ
deriving DecidableEq

/-- The effective trait value read by the source expression
nft.traits[type] || "None": a missing key, and the falsy empty
string, both give the literal "None". -/
def traitValue (n : NFT) (ty : String) : String :=
  match alookup ty n.traits with
  | some v => if v = "" then "None" else v
  | none => "None"

/-- Set.add of the trait-type collection phase: append when absent. -/
def insertType (acc : List String) (t : String) : List String :=
  if t ∈ acc then acc else acc ++ [t]

/-- The trait-type Set of countTraits, in first-observation order. -/
def collectTypes (nfts : List NFT) : List String :=
  nfts.foldl (fun acc n => n.traits.foldl (fun a p => insertType a p.1) acc) []

/-- traitCounts[type][value] = (traitCounts[type][value] || 0) + 1 on an
association list: update in place, or append with count 1. -/
def bump : List (String × Nat) → String → List (String × Nat)
  | [], v => [(v, 1)]
  | (k, c) :: rest, v =>
    if k = v then (k, c + 1) :: rest else (k, c) :: bump rest v

/-- The counting loop of countTraits for one trait type: fold the items,
bumping the count of the effective value of each. -/
def valueCountsFor (nfts : List NFT) (ty : String) : List (String × Nat) :=
  nfts.foldl (fun m n => bump m (traitValue n ty)) []

/-- Specification-side measure: how many items carry effective value v
for trait type ty. -/
def countVal (nfts : List NFT) (ty : String) (v : String) : Nat :=
  (nfts.filter (fun n => traitValue n ty = v)).length

/-- The percentage pass of countTraits:
percentage = parseFloat(((count / totalNFTs) * 100).toFixed(2)). -/
def toStat (total c : Nat) : TraitStat :=
  { count := c, percentage := roundTo2 ((c : ℚ) / (total : ℚ) * 100) }

/-- The value returned by countTraits: the traitCounts dictionary and
the trait-type array. -/
structure TraitAnalysis where
  traitCounts : List (String × List (String × TraitStat))
  traitTypes : List String
deriving DecidableEq

/-- countTraits of the analyzer: collect the trait types, count every
effective value per type, then attach percentages of the total. -/
def countTraits (nfts : List NFT) : TraitAnalysis :=
  { traitCounts := (collectTypes nfts).map (fun ty =>
      (ty, (valueCountsFor nfts ty).map (fun p => (p.1, toStat nfts.length p.2))))
    traitTypes := collectTypes nfts }

/-- The lookup traitCounts[type][value] performed by findRareNFTs. -/
def statOf (a : TraitAnalysis) (ty v : String) : Option TraitStat :=
  (alookup ty a.traitCounts).bind (fun m => alookup v m)

/-- The branch of findRareNFTs that builds one rarity-details entry from
a found stat: one-of-one first, then the threshold test, else not rare. -/
def classifyTrait (oneOfOne : Bool) (thr : ℚ) (v : String) (st : TraitStat) :
    RarityDetail :=
  if oneOfOne && st.count == 1 then
    { value := v, count := 1, percentage := st.percentage,
      rare := true, reason := some Reason.oneOfOne }
  else if st.percentage ≤ thr then
    { value := v, count := st.count, percentage := st.percentage,
      rare := true, reason := some Reason.belowThreshold }
  else
    { value := v, count := st.count, percentage := st.percentage,
      rare := false, reason := none }

/-- The rarityDetails object findRareNFTs builds for one item: one entry
per trait type whose looked-up stat exists, in trait-type order. -/
def annotateNFT (oneOfOne : Bool) (thr : ℚ) (a : TraitAnalysis) (n : NFT) :
    List (String × RarityDetail) :=
  a.traitTypes.filterMap (fun ty =>
    (statOf a ty (traitValue n ty)).map
      (fun st => (ty, classifyTrait oneOfOne thr (traitValue n ty) st)))

/-- findRareNFTs of the analyzer: keep exactly the items one of whose
details is rare, attaching the details to the item. -/
def findRareNFTs (oneOfOne : Bool) (thr : ℚ) (nfts : List NFT)
    (a : TraitAnalysis) : List NFT :=
  nfts.filterMap (fun n =>
    if (annotateNFT oneOfOne thr a n).any (fun p => p.2.rare) then
      some { n with rarity := annotateNFT oneOfOne thr a n }
    else none)

/-! ### Remote client (magiceden.js and logger.js) -/

/-- An axios response as seen by the error handler. Axios attaches the
request configuration to every response it delivers, so the truthiness
test resp.config of the source is always satisfied when a response is
present; the url field stands for that configuration. -/
structure AxiosResponse where
  status : Nat
  statusText : String := ""
  url : String := ""
deriving DecidableEq

/-- An error thrown by an axios request: a response is present for HTTP
error statuses and absent for network-level failures. -/
structure ApiError where
  message : String := ""
  response : Option AxiosResponse := none
deriving DecidableEq

/-- requestError of logger.js. Returns the retry flag together with
the milliseconds slept before returning: on a 429 response it sleeps
5000 ms and reports retryable, otherwise it reports non-retryable at
once. -/
def requestError (e : ApiError) : Bool × Nat :=
  match e.response with
  | some r => if r.status = 429 then (true, 5000) else (false, 0)
  | none => (false, 0)

/-- Outcome of one axios.get: delivered data, or a thrown error. -/
inductive FetchResult (α : Type) where
  | ok (data : α)
  | err (e : ApiError)
deriving DecidableEq

/-- One record of the listings endpoint. -/
structure Listing where
  tokenMint : String
  price : Option ℚ := none
  seller : Option String := none
deriving DecidableEq

/-- The page size of both paginated fetchers. -/
def pageLimit : Nat := 500

/-- The while loop of getCollectionListings. The remote endpoint is an
oracle from (offset, request counter) to a result, so a retried request
carries the same offset (same URL) but may be answered differently.
Fuel bounds the unbounded source loop; none means the loop was still
running when the fuel ran out. -/
def runListings (oracle : Nat → Nat → FetchResult (List Listing)) :
    Nat → Nat → Nat → List Listing → Option (List Listing)
  | 0, _, _, _ => none
  | fuel + 1, i, off, acc =>
    match oracle off i with
    | FetchResult.ok data =>
      if 0 < data.length then
        if data.length < pageLimit then some (acc ++ data)
        else runListings oracle fuel (i + 1) (off + pageLimit) (acc ++ data)
      else some acc
    | FetchResult.err e =>
      if (requestError e).1 then runListings oracle fuel (i + 1) off acc
      else some acc

/-- getCollectionListings: run the loop from offset 0 with no records. -/
def getCollectionListings (oracle : Nat → Nat → FetchResult (List Listing))
    (fuel : Nat) : Option (List Listing) :=
  runListings oracle fuel 0 0 []

/-- Collection metadata returned by the collections endpoint. -/
structure CollectionInfo where
  symbol : String
  name : String := ""
deriving DecidableEq

/-- Raw token metadata returned by the tokens endpoint. -/
structure Token where
  mintAddress : String
  name : String := ""
deriving DecidableEq

/-- getNFTMetadata: one request; on a thrown error requestError is
consulted (so a 429 still sleeps) but its retry flag is discarded and
null is returned. -/
def getNFTMetadata (r : FetchResult Token) : Option Token :=
  match r with
  | FetchResult.ok d => some d
  | FetchResult.err e =>
    let _ := requestError e
    none

/-- getCollectionInfo: same single-request shape as getNFTMetadata. -/
def getCollectionInfo (r : FetchResult CollectionInfo) :
    Option CollectionInfo :=
  match r with
  | FetchResult.ok d => some d
  | FetchResult.err e =>
    let _ := requestError e
    none

/-- getCollectionStats: same single-request shape as getNFTMetadata. -/
def getCollectionStats (r : FetchResult ℚ) : Option ℚ :=
  match r with
  | FetchResult.ok d => some d
  | FetchResult.err e =>
    let _ := requestError e
    none

/-- Modelled from the spec: the retry behaviour the specification
ascribes to every remote call, a single-record fetch included — on a
429 the same logical request is re-issued against the oracle. Compared
against getNFTMetadata, which never re-issues. -/
def getNFTMetadataRetrySpec (oracle : Nat → FetchResult Token) :
    Nat → Nat → Option Token
  | 0, _ => none
  | fuel + 1, i =>
    match oracle i with
    | FetchResult.ok d => some d
    | FetchResult.err e =>
      if (requestError e).1 then getNFTMetadataRetrySpec oracle fuel (i + 1)
      else none

/-! ### Cache layer (cache.js) -/

/-- The persisted snapshot file: a modification time in milliseconds and
the parse outcome of its contents (none when JSON.parse throws). -/
structure SnapshotFile (α : Type) where
  mtimeMs : Nat
  content : Option α
deriving DecidableEq

/-- The two files cache.js keeps per collection symbol. -/
structure CacheFs (α : Type) where
  snapshotFile : Option (SnapshotFile α) := none
  seenFile : Option (List String) := none
deriving DecidableEq

/-- clearCache: unlink the snapshot file when present; the seen file is
not touched. -/
def clearCache {α : Type} (fs : CacheFs α) : CacheFs α :=
  { fs with snapshotFile := none }

/-- cacheExists: the snapshot file exists and its age at read time,
current time minus last-modified time, does not exceed the configured
expiry window. -/
def cacheExists {α : Type} (expireHours : Nat) (nowMs : Nat)
    (fs : CacheFs α) : Bool :=
  match fs.snapshotFile with
  | none => false
  | some f => !(expireHours * 60 * 60 * 1000 < nowMs - f.mtimeMs)

/-- loadFromCache: null when caching is disabled, when cacheExists
fails, or when reading or parsing throws; otherwise the parsed data. -/
def loadFromCache {α : Type} (cacheEnabled : Bool) (expireHours : Nat)
    (nowMs : Nat) (fs : CacheFs α) : Option α :=
  if !cacheEnabled then none
  else if !(cacheExists expireHours nowMs fs) then none
  else fs.snapshotFile.bind (fun f => f.content)

/-! ### Seen-set dedup loop (processCollection of index.js) -/

/-- The forEach over the rare listed items: state is the seen list (the
JS Set, kept duplicate-free by the membership test) and the
newRareNFTs list. A mint already seen is skipped; a new one is added
to the seen set and its item queued for the notification. -/
def processRareList (st : List String × List NFT) :
    List NFT → List String × List NFT
  | [] => st
  | n :: rest =>
    if n.mintAddress ∈ st.1 then processRareList st rest
    else processRareList (st.1 ++ [n.mintAddress], st.2 ++ [n]) rest

/-- One scan cycle as far as the seen set is concerned: run the dedup
loop from an empty newRareNFTs list. -/
def scanCycle (seen : List String) (rare : List NFT) :
    List String × List NFT :=
  processRareList (seen, []) rare

/-- A sequence of scan cycles over one collection: thread the seen set
through and record the batch handed to the notification sink in each
cycle. -/
def runCycles (seen : List String) :
    List (List NFT) → List String × List (List NFT)
  | [] => (seen, [])
  | c :: cs =>
    let r := scanCycle seen c
    let rest := runCycles r.1 cs
    (rest.1, r.2 :: rest.2)

/-! ### Scheduler flag logic (main and setupIntervalRuns of index.js) -/

/-- An event seen by the scheduler: a trigger (startup or interval
timer) or the completion of the running cycle, successful or after a
caught error. -/
inductive Ev where
  | trigger
  | complete (ok : Bool)
deriving DecidableEq

def Ev.isComplete : Ev → Bool
  | Ev.trigger => false
  | Ev.complete _ => true

/-- Scheduler state: the isScanRunning flag of index.js, plus
observation counters — cycles currently executing, cycles started, and
triggers dropped. -/
structure Sched where
  isScanRunning : Bool := false
  running : Nat := 0
  started : Nat := 0
  dropped : Nat := 0
deriving DecidableEq

/-- The state at process start. -/
def schedInit : Sched := {}

/-- main of index.js as a step function: a trigger while the flag is
set is dropped; otherwise the flag is set and a cycle starts. The
finally block clears the flag on completion, ok or not. -/
def schedStep (s : Sched) : Ev → Sched
  | Ev.trigger =>
    if s.isScanRunning then { s with dropped := s.dropped + 1 }
    else { s with isScanRunning := true, running := s.running + 1,
                  started := s.started + 1 }
  | Ev.complete _ =>
    { s with isScanRunning := false, running := s.running - 1 }

/-- Run a sequence of events. -/
def schedExec (s : Sched) : List Ev → Sched
  | [] => s
  | e :: t => schedExec (schedStep s e) t

/-- A trace is valid when every completion event is the completion of a
cycle that is actually executing. -/
def ValidFrom (s : Sched) : List Ev → Prop
  | [] => True
  | e :: t => (e.isComplete = true → 0 < s.running) ∧ ValidFrom (schedStep s e) t

/-- Invariant of the scheduler state: at most one cycle executes, and
the flag is set exactly while one does. -/
def SchedInv (s : Sched) : Prop :=
  s.running ≤ 1 ∧ (s.isScanRunning = true ↔ s.running = 1)

/-! ### Concrete inputs used by witnesses and counterexamples -/

def nftA : NFT := { mintAddress := "m1", traits := [("bg", "a")] }

def nftB : NFT := { mintAddress := "m2", traits := [("bg", "b")] }

def nftC : NFT := { mintAddress := "m3", traits := [("bg", "c")] }

/-- Three items, each with a distinct background value. -/
def exList3 : List NFT := [nftA, nftB, nftC]

/-- A hand-written stats table: background value a is a one-of-one,
value b is common. -/
def exAnalysis1 : TraitAnalysis :=
  { traitCounts :=
      [("bg", [("a", { count := 1, percentage := 10 }),
               ("b", { count := 5, percentage := 50 })])]
    traitTypes := ["bg"] }

/-- A stats table whose background entry does not contain the value
carried by nftA. -/
def exAnalysisMissing : TraitAnalysis :=
  { traitCounts := [("bg", [("x", { count := 1, percentage := 10 })])]
    traitTypes := ["bg"] }

/-- The error axios throws on a rate-limited request. -/
def err429 : ApiError :=
  { message := "Request failed with status code 429"
    response := some { status := 429, statusText := "Too Many Requests" } }

/-- A network-level failure: no response at all. -/
def errNet : ApiError := { message := "socket hang up", response := none }

/-- A server error response. -/
def err500 : ApiError :=
  { message := "Request failed with status code 500"
    response := some { status := 500, statusText := "Server Error" } }

def tokenEx : Token := { mintAddress := "So1" }

/-- A token endpoint that is rate limited once and then succeeds. -/
def oracle429Then : Nat → FetchResult Token :=
  fun i => if i = 0 then FetchResult.err err429 else FetchResult.ok tokenEx

/-- A listings endpoint that answers every request with HTTP 429. -/
def always429L : Nat → Nat → FetchResult (List Listing) :=
  fun _ _ => FetchResult.err err429

/-- A listings endpoint: rate limited on the first request, then one
short page. -/
def oracleL : Nat → Nat → FetchResult (List Listing) :=
  fun _ i =>
    if i = 0 then FetchResult.err err429
    else FetchResult.ok [{ tokenMint := "So1" }]

def nftM0 : NFT := { mintAddress := "m0", traits := [] }

def nftM1 : NFT := { mintAddress := "m1", traits := [] }

/-- A scheduler trace: startup trigger, an overlapping timer trigger,
completion, and a further trigger. -/
def exTrace : List Ev :=
  [Ev.trigger, Ev.trigger, Ev.complete true, Ev.trigger]

/-! ### Association-list and counting lemmas -/

theorem alookup_map_value {β γ : Type} (f : β → γ) (k : String) :
    ∀ m : List (String × β),
      alookup k (m.map (fun p => (p.1, f p.2))) = (alookup k m).map f
  | [] => rfl
  | (k2, v) :: rest => by
    by_cases h : k2 = k <;> simp [alookup, h, alookup_map_value f k rest]

theorem alookup_keyed_map {β : Type} (f : String → β) (k : String) :
    ∀ types : List String,
      alookup k (types.map (fun t => (t, f t))) =
        if k ∈ types then some (f k) else none
  | [] => by simp [alookup]
  | t :: rest => by
    by_cases h : t = k
    · subst h; simp [alookup]
    · simp [alookup, h, alookup_keyed_map f k rest, Ne.symm h]

theorem alookup_bump (v w : String) :
    ∀ m, alookup w (bump m v) =
      if w = v then some ((alookup v m).getD 0 + 1) else alookup w m
  | [] => by
    by_cases h : w = v
    · subst h; simp [bump, alookup]
    · simp [bump, alookup, h, Ne.symm h]
  | (k, c) :: rest => by
    by_cases h : w = v
    · subst h
      by_cases hk : k = w
      · subst hk; simp [bump, alookup]
      · simp [bump, alookup, hk, alookup_bump w w rest]
    · by_cases hk : k = v
      · subst hk
        have hkw : ¬k = w := fun hh => h hh.symm
        simp [bump, alookup, hkw, h]
      · by_cases hkw : k = w
        · subst hkw; simp [bump, alookup, hk, h]
        · simp [bump, alookup, hk, hkw, alookup_bump v w rest, h]

theorem countVal_nil (ty v : String) : countVal [] ty v = 0 := rfl

theorem countVal_cons (n : NFT) (l : List NFT) (ty v : String) :
    countVal (n :: l) ty v =
      (if traitValue n ty = v then 1 else 0) + countVal l ty v := by
  by_cases h : traitValue n ty = v <;>
    simp [countVal, List.filter_cons, h, Nat.add_comm]

theorem alookup_countFold (ty v : String) :
    ∀ (l : List NFT) (m : List (String × Nat)),
      alookup v (l.foldl (fun m n => bump m (traitValue n ty)) m) =
        if countVal l ty v = 0 then alookup v m
        else some ((alookup v m).getD 0 + countVal l ty v)
  | [], m => by simp [countVal_nil]
  | n :: l, m => by
    rw [List.foldl_cons, alookup_countFold ty v l, countVal_cons]
    by_cases h : traitValue n ty = v
    · subst h
      rw [alookup_bump]
      simp only [if_pos rfl]
      by_cases h0 : countVal l (traitValue n ty) (traitValue n ty) = 0 <;>
        simp [h0, Nat.add_comm, Nat.add_assoc, Nat.add_left_comm]
    · have h' : ¬v = traitValue n ty := fun hh => h hh.symm
      rw [alookup_bump, if_neg h']
      simp [h]

theorem alookup_valueCountsFor (l : List NFT) (ty v : String) :
    alookup v (valueCountsFor l ty) =
      if countVal l ty v = 0 then none else some (countVal l ty v) := by
  rw [valueCountsFor, alookup_countFold]
  by_cases h : countVal l ty v = 0 <;> simp [h, alookup]

theorem sum_bump (v : String) :
    ∀ m : List (String × Nat),
      ((bump m v).map (fun p => p.2)).sum = (m.map (fun p => p.2)).sum + 1
  | [] => by simp [bump]
  | (k, c) :: rest => by
    by_cases h : k = v <;>
      simp [bump, h, sum_bump v rest, Nat.add_comm, Nat.add_assoc,
        Nat.add_left_comm]

theorem sum_countFold (ty : String) :
    ∀ (l : List NFT) (m : List (String × Nat)),
      ((l.foldl (fun m n => bump m (traitValue n ty)) m).map
          (fun p => p.2)).sum =
        (m.map (fun p => p.2)).sum + l.length
  | [], m => by simp
  | n :: l, m => by
    rw [List.foldl_cons, sum_countFold ty l, sum_bump]
    simp [Nat.add_comm, Nat.add_assoc, Nat.add_left_comm]

theorem sum_valueCountsFor (l : List NFT) (ty : String) :
    ((valueCountsFor l ty).map (fun p => p.2)).sum = l.length := by
  rw [valueCountsFor, sum_countFold]; simp

theorem mem_insertType (x t : String) (acc : List String) :
    x ∈ insertType acc t ↔ x ∈ acc ∨ x = t := by
  by_cases h : t ∈ acc
  · constructor
    · intro hx; exact Or.inl (by simpa [insertType, h] using hx)
    · rintro (hx | rfl)
      · simp [insertType, h, hx]
      · simp [insertType, h]
  · simp [insertType, h]

theorem mem_foldl_insertKeys (x : String) :
    ∀ (ps : List (String × String)) (acc : List String),
      x ∈ ps.foldl (fun a p => insertType a p.1) acc ↔
        x ∈ acc ∨ ∃ p ∈ ps, p.1 = x
  | [], acc => by simp
  | p :: ps, acc => by
    rw [List.foldl_cons, mem_foldl_insertKeys x ps, mem_insertType]
    constructor
    · rintro ((h | h) | ⟨q, hq, rfl⟩)
      · exact Or.inl h
      · exact Or.inr ⟨p, List.mem_cons_self .., h.symm⟩
      · exact Or.inr ⟨q, List.mem_cons_of_mem _ hq, rfl⟩
    · rintro (h | ⟨q, hq, rfl⟩)
      · exact Or.inl (Or.inl h)
      · rcases List.mem_cons.mp hq with rfl | hq
        · exact Or.inl (Or.inr rfl)
        · exact Or.inr ⟨q, hq, rfl⟩

theorem mem_collectTypes_fold (x : String) :
    ∀ (l : List NFT) (acc : List String),
      x ∈ l.foldl
          (fun acc n => n.traits.foldl (fun a p => insertType a p.1) acc)
          acc ↔
        x ∈ acc ∨ ∃ n ∈ l, ∃ p ∈ n.traits, p.1 = x
  | [], acc => by simp
  | n :: l, acc => by
    rw [List.foldl_cons, mem_collectTypes_fold x l, mem_foldl_insertKeys]
    constructor
    · rintro ((h | ⟨p, hp, rfl⟩) | ⟨n2, hn2, hp⟩)
      · exact Or.inl h
      · exact Or.inr ⟨n, List.mem_cons_self .., p, hp, rfl⟩
      · exact Or.inr ⟨n2, List.mem_cons_of_mem _ hn2, hp⟩
    · rintro (h | ⟨n2, hn2, hp⟩)
      · exact Or.inl (Or.inl h)
      · rcases List.mem_cons.mp hn2 with rfl | hn2
        · exact Or.inl (Or.inr hp)
        · exact Or.inr ⟨n2, hn2, hp⟩

theorem mem_collectTypes (x : String) (l : List NFT) :
    x ∈ collectTypes l ↔ ∃ n ∈ l, ∃ p ∈ n.traits, p.1 = x := by
  rw [collectTypes, mem_collectTypes_fold]; simp

/-- Lookup characterization of the countTraits output: a stat exists
for (type, value) exactly when the type is observed and some item
carries that effective value, and then it records the item count and
the rounded percentage. -/
theorem statOf_countTraits (l : List NFT) (ty v : String) :
    statOf (countTraits l) ty v =
      if ty ∈ collectTypes l then
        (if countVal l ty v = 0 then none
         else some (toStat l.length (countVal l ty v)))
      else none := by
  rw [statOf, countTraits]
  simp only []
  rw [alookup_keyed_map]
  by_cases h : ty ∈ collectTypes l
  · rw [if_pos h, if_pos h, Option.some_bind, alookup_map_value,
      alookup_valueCountsFor]
    by_cases h0 : countVal l ty v = 0 <;> simp [h0]
  · rw [if_neg h, if_neg h, Option.none_bind]

/-- The outer dictionary of countTraits: an entry per observed trait
type, holding its value statistics. -/
theorem alookup_traitCounts (l : List NFT) (ty : String) :
    alookup ty (countTraits l).traitCounts =
      if ty ∈ collectTypes l then
        some ((valueCountsFor l ty).map (fun p => (p.1, toStat l.length p.2)))
      else none :=
  alookup_keyed_map _ ty (collectTypes l)

/-! ### Claim C3: countTraits -/

/-- C3 counterexample: with three items carrying background values
a, b, c, the stored percentage for value a is 33.33 — the rounded
value that parseFloat((1/3*100).toFixed(2)) yields — which is not
equal to count divided by the total number of items times 100, so the
claim as stated fails. -/
theorem countTraits_percentage_rounded :
    statOf (countTraits exList3) "bg" "a" =
      some { count := 1, percentage := 3333/100 } ∧
    (3333 : ℚ)/100 ≠ (1 : ℚ)/3 * 100 := by
  constructor
  · rw [statOf_countTraits]
    rw [if_pos (by decide : "bg" ∈ collectTypes exList3),
      (by decide : countVal exList3 "bg" "a" = 1)]
    norm_num [toStat, roundTo2, exList3]
  · norm_num

/-- C3 (amended): for every trait-type observed on any item,
countTraits maps each occurring trait-value to a count of at least 1 —
the number of items carrying that effective value — and a percentage
equal to count divided by the total number of items times 100 rounded
to two decimal places; an item missing an observed trait-type
contributes the literal value "None"; every item contributes exactly
one value per observed trait-type, so the counts of a trait-type sum
to the number of items; for an empty item list the result is empty. -/
theorem countTraits_spec :
    (∀ (l : List NFT) (ty : String),
      ty ∈ (countTraits l).traitTypes ↔ ∃ n ∈ l, ∃ p ∈ n.traits, p.1 = ty) ∧
    (∀ (l : List NFT) (ty v : String) (st : TraitStat),
      statOf (countTraits l) ty v = some st →
        1 ≤ st.count ∧ st.count = countVal l ty v ∧
        st.percentage =
          roundTo2 ((countVal l ty v : ℚ) / (l.length : ℚ) * 100)) ∧
    (∀ (l : List NFT) (ty v : String),
      ty ∈ (countTraits l).traitTypes → 0 < countVal l ty v →
        statOf (countTraits l) ty v =
          some (toStat l.length (countVal l ty v))) ∧
    (∀ (n : NFT) (ty : String),
      alookup ty n.traits = none → traitValue n ty = "None") ∧
    (∀ (l : List NFT) (ty : String), ty ∈ (countTraits l).traitTypes →
      (alookup ty (countTraits l).traitCounts).map
          (fun m => (m.map (fun p => p.2.count)).sum) = some l.length) ∧
    countTraits [] = { traitCounts := [], traitTypes := [] } := by
  refine ⟨?_, ?_, ?_, ?_, ?_, rfl⟩
  · intro l ty
    exact mem_collectTypes ty l
  · intro l ty v st h
    rw [statOf_countTraits] at h
    by_cases hm : ty ∈ collectTypes l
    · rw [if_pos hm] at h
      by_cases h0 : countVal l ty v = 0
      · rw [if_pos h0] at h; cases h
      · rw [if_neg h0] at h
        have hst : st = toStat l.length (countVal l ty v) :=
          (Option.some.injEq _ _ ▸ h).symm
        subst hst
        exact ⟨Nat.one_le_iff_ne_zero.mpr h0, rfl, rfl⟩
    · rw [if_neg hm] at h; cases h
  · intro l ty v hm h0
    have hm2 : ty ∈ collectTypes l := hm
    rw [statOf_countTraits, if_pos hm2, if_neg (Nat.pos_iff_ne_zero.mp h0)]
  · intro n ty h
    rw [traitValue, h]
  · intro l ty hm
    have hm2 : ty ∈ collectTypes l := hm
    rw [alookup_traitCounts, if_pos hm2]
    have hcomp : (((valueCountsFor l ty).map
        (fun p => (p.1, toStat l.length p.2))).map
        (fun p => p.2.count)).sum = l.length := by
      rw [List.map_map]
      have hfun : ((fun p : String × TraitStat => p.2.count) ∘
          fun p : String × Nat => (p.1, toStat l.length p.2)) =
          (fun p : String × Nat => p.2) := rfl
      rw [hfun, sum_valueCountsFor]
    simpa using hcomp

/-- C3 witness: the amended theorem applied to the three-item example
and to an item with no traits. -/
theorem countTraits_spec_witness :
    (1 ≤ (1 : Nat) ∧ (1 : Nat) = countVal exList3 "bg" "a" ∧
      (3333 : ℚ)/100 =
        roundTo2 ((countVal exList3 "bg" "a" : ℚ) / (exList3.length : ℚ) * 100)) ∧
    traitValue nftM0 "bg" = "None" := by
  constructor
  · exact countTraits_spec.2.1 exList3 "bg" "a"
      { count := 1, percentage := 3333/100 }
      (by rw [statOf_countTraits]
          rw [if_pos (by decide : "bg" ∈ collectTypes exList3),
            (by decide : countVal exList3 "bg" "a" = 1)]
          norm_num [toStat, roundTo2, exList3])
  · exact countTraits_spec.2.2.2.1 nftM0 "bg" (by decide)

/-! ### Claim C8: countTraits is order-independent -/

/-- C8: countTraits is deterministic, pure and order-independent — for
every permutation of the item list the computed statistics are
identical: every (trait-type, trait-value) lookup returns the same
stat, and the observed trait-type sets coincide (the dictionaries are
compared as key-value mappings; only the insertion order of keys can
differ). -/
theorem countTraits_perm_invariant (l1 l2 : List NFT) (h : l1.Perm l2) :
    (∀ ty v : String,
      statOf (countTraits l1) ty v = statOf (countTraits l2) ty v) ∧
    (∀ ty : String,
      ty ∈ (countTraits l1).traitTypes ↔ ty ∈ (countTraits l2).traitTypes) := by
  have hlen : l1.length = l2.length := h.length_eq
  have hcv : ∀ ty v, countVal l1 ty v = countVal l2 ty v := by
    intro ty v
    unfold countVal
    exact (h.filter _).length_eq
  have hmem : ∀ ty, ty ∈ collectTypes l1 ↔ ty ∈ collectTypes l2 := by
    intro ty
    rw [mem_collectTypes, mem_collectTypes]
    constructor
    · rintro ⟨n, hn, hp⟩; exact ⟨n, h.mem_iff.mp hn, hp⟩
    · rintro ⟨n, hn, hp⟩; exact ⟨n, h.mem_iff.mpr hn, hp⟩
  refine ⟨fun ty v => ?_, fun ty => hmem ty⟩
  rw [statOf_countTraits, statOf_countTraits, hcv, hlen]
  by_cases hm : ty ∈ collectTypes l1
  · rw [if_pos hm, if_pos ((hmem ty).mp hm)]
  · rw [if_neg hm, if_neg (fun hh => hm ((hmem ty).mpr hh))]

/-- C8 witness: a rotation of the three-item example gives identical
lookups and the same observed trait-types. -/
theorem countTraits_perm_invariant_witness :
    statOf (countTraits exList3) "bg" "a" =
      statOf (countTraits [nftC, nftA, nftB]) "bg" "a" ∧
    ("bg" ∈ (countTraits exList3).traitTypes ↔
      "bg" ∈ (countTraits [nftC, nftA, nftB]).traitTypes) :=
  ⟨(countTraits_perm_invariant exList3 [nftC, nftA, nftB] (by decide)).1
      "bg" "a",
   (countTraits_perm_invariant exList3 [nftC, nftA, nftB] (by decide)).2
      "bg"⟩

/-! ### Claims C1, C9, C10: findRareNFTs -/

/-- The rare flag and the reason chosen by the classification branch:
rare exactly when one-of-one is enabled and the count is 1, or the
percentage is at or below the threshold; the one-of-one reason wins
when both hold. -/
theorem classifyTrait_spec (oneOfOne : Bool) (thr : ℚ) (v : String)
    (st : TraitStat) :
    ((classifyTrait oneOfOne thr v st).rare = true ↔
      (oneOfOne = true ∧ st.count = 1) ∨ st.percentage ≤ thr) ∧
    ((oneOfOne = true ∧ st.count = 1) →
      (classifyTrait oneOfOne thr v st).reason = some Reason.oneOfOne) ∧
    (¬(oneOfOne = true ∧ st.count = 1) → st.percentage ≤ thr →
      (classifyTrait oneOfOne thr v st).reason = some Reason.belowThreshold) := by
  have hb : (oneOfOne && st.count == 1) = true ↔
      (oneOfOne = true ∧ st.count = 1) := by
    simp [Bool.and_eq_true, beq_iff_eq]
  by_cases h1 : oneOfOne = true ∧ st.count = 1
  · have hbt : (oneOfOne && st.count == 1) = true := hb.mpr h1
    exact ⟨by simp [classifyTrait, hbt, h1],
      fun _ => by simp [classifyTrait, hbt],
      fun hc _ => absurd h1 hc⟩
  · have hbf : (oneOfOne && st.count == 1) = false :=
      Bool.eq_false_iff.mpr (fun hh => h1 (hb.mp hh))
    by_cases h2 : st.percentage ≤ thr
    · exact ⟨by simp [classifyTrait, hbf, h2],
        fun hc => absurd hc h1,
        fun _ _ => by simp [classifyTrait, hbf, h2]⟩
    · exact ⟨by simp [classifyTrait, hbf, h2, h1],
        fun hc => absurd hc h1,
        fun _ hc => absurd hc h2⟩

/-- Looking up a trait type in the details list built by annotateNFT,
when the type occurs in the iterated type list and its stat exists. -/
theorem alookup_annotFM (oneOfOne : Bool) (thr : ℚ) (a : TraitAnalysis)
    (n : NFT) (ty : String) (st : TraitStat) :
    ∀ types : List String, ty ∈ types →
      statOf a ty (traitValue n ty) = some st →
      alookup ty (types.filterMap (fun t =>
        (statOf a t (traitValue n t)).map
          (fun s => (t, classifyTrait oneOfOne thr (traitValue n t) s)))) =
        some (classifyTrait oneOfOne thr (traitValue n ty) st)
  | [], h, _ => absurd h (List.not_mem_nil _)
  | t :: types, h, hst => by
    by_cases hty : t = ty
    · subst hty
      simp [List.filterMap_cons, hst, alookup]
    · have h2 : ty ∈ types := by
        rcases List.mem_cons.mp h with hh | hh
        · exact absurd hh.symm hty
        · exact hh
      have IH := alookup_annotFM oneOfOne thr a n ty st types h2 hst
      cases hs : statOf a t (traitValue n t) with
      | none => simp [List.filterMap_cons, hs, IH]
      | some s => simp [List.filterMap_cons, hs, alookup, hty, IH]

/-- C1: for every item and every trait-type of the statistics whose
looked-up value has a stat, findRareNFTs marks the trait rare exactly
when (one-of-one enabled and count equals 1) or percentage is at or
below percentThreshold (inclusive at equality), reporting the
one-of-one reason in preference when both hold; and an item appears in
the returned rare list exactly when at least one of its details is
marked rare. -/
theorem findRareNFTs_spec (oneOfOne : Bool) (thr : ℚ) (nfts : List NFT)
    (a : TraitAnalysis) :
    (∀ (n : NFT) (ty : String) (st : TraitStat), ty ∈ a.traitTypes →
      statOf a ty (traitValue n ty) = some st →
      ∃ d, alookup ty (annotateNFT oneOfOne thr a n) = some d ∧
        (d.rare = true ↔
          (oneOfOne = true ∧ st.count = 1) ∨ st.percentage ≤ thr) ∧
        ((oneOfOne = true ∧ st.count = 1) →
          d.reason = some Reason.oneOfOne) ∧
        (¬(oneOfOne = true ∧ st.count = 1) → st.percentage ≤ thr →
          d.reason = some Reason.belowThreshold)) ∧
    (∀ m : NFT, m ∈ findRareNFTs oneOfOne thr nfts a ↔
      ∃ n ∈ nfts,
        (annotateNFT oneOfOne thr a n).any (fun p => p.2.rare) = true ∧
        m = { n with rarity := annotateNFT oneOfOne thr a n }) := by
  constructor
  · intro n ty st hty hst
    exact ⟨classifyTrait oneOfOne thr (traitValue n ty) st,
      alookup_annotFM oneOfOne thr a n ty st a.traitTypes hty hst,
      classifyTrait_spec oneOfOne thr (traitValue n ty) st⟩
  · intro m
    unfold findRareNFTs
    rw [List.mem_filterMap]
    constructor
    · rintro ⟨n, hn, hf⟩
      by_cases hr : (annotateNFT oneOfOne thr a n).any (fun p => p.2.rare) = true
      · rw [if_pos hr] at hf
        exact ⟨n, hn, hr, (Option.some_inj.mp hf).symm⟩
      · rw [if_neg hr] at hf
        cases hf
    · rintro ⟨n, hn, hr, rfl⟩
      exact ⟨n, hn, by rw [if_pos hr]⟩

/-- C1 witness: one-of-one enabled, threshold 5, an item whose
background value a has count 1 in the table — marked rare with the
one-of-one reason, and the item is in the rare list. -/
theorem findRareNFTs_spec_witness :
    (∃ d, alookup "bg" (annotateNFT true 5 exAnalysis1 nftA) = some d ∧
      (d.rare = true ↔
        (true = true ∧ ({ count := 1, percentage := 10 } : TraitStat).count = 1) ∨
          ({ count := 1, percentage := 10 } : TraitStat).percentage ≤ 5) ∧
      ((true = true ∧ ({ count := 1, percentage := 10 } : TraitStat).count = 1) →
        d.reason = some Reason.oneOfOne) ∧
      (¬(true = true ∧ ({ count := 1, percentage := 10 } : TraitStat).count = 1) →
        ({ count := 1, percentage := 10 } : TraitStat).percentage ≤ 5 →
        d.reason = some Reason.belowThreshold)) ∧
    ({ nftA with rarity := annotateNFT true 5 exAnalysis1 nftA } ∈
        findRareNFTs true 5 [nftA] exAnalysis1 ↔
      ∃ n ∈ [nftA],
        (annotateNFT true 5 exAnalysis1 n).any (fun p => p.2.rare) = true ∧
        { nftA with rarity := annotateNFT true 5 exAnalysis1 nftA } =
          { n with rarity := annotateNFT true 5 exAnalysis1 n }) :=
  ⟨(findRareNFTs_spec true 5 [nftA] exAnalysis1).1 nftA "bg"
      { count := 1, percentage := 10 } (by decide) (by decide),
   (findRareNFTs_spec true 5 [nftA] exAnalysis1).2 _⟩

/-- A filterMap whose hits are fixed points is idempotent. -/
theorem filterMap_fix {α : Type} (f : α → Option α)
    (hf : ∀ x y, f x = some y → f y = some y) :
    ∀ l : List α, (l.filterMap f).filterMap f = l.filterMap f
  | [] => rfl
  | x :: l => by
    cases h : f x with
    | none => simp [List.filterMap_cons, h, filterMap_fix f hf l]
    | some y => simp [List.filterMap_cons, h, hf x y h, filterMap_fix f hf l]

/-- C9: classification is idempotent — applying findRareNFTs to its own
output against the same statistics returns the same items with the
same rarity details. -/
theorem findRareNFTs_idempotent (oneOfOne : Bool) (thr : ℚ)
    (nfts : List NFT) (a : TraitAnalysis) :
    findRareNFTs oneOfOne thr (findRareNFTs oneOfOne thr nfts a) a =
      findRareNFTs oneOfOne thr nfts a := by
  unfold findRareNFTs
  apply filterMap_fix
  intro x y hxy
  by_cases hr : (annotateNFT oneOfOne thr a x).any (fun p => p.2.rare) = true
  · rw [if_pos hr] at hxy
    have hy : y = { x with rarity := annotateNFT oneOfOne thr a x } :=
      (Option.some_inj.mp hxy).symm
    subst hy
    have hann : annotateNFT oneOfOne thr a
        { x with rarity := annotateNFT oneOfOne thr a x } =
        annotateNFT oneOfOne thr a x := rfl
    rw [hann, if_pos hr]
  · rw [if_neg hr] at hxy
    cases hxy

/-- C10: when the looked-up value of a trait-type has no stat in the
table, findRareNFTs attaches no details entry at all for that
trait-type, and the item is rare exactly when some other trait-type
carries a rare entry — the missing trait can never make the item rare,
whatever the one-of-one flag and threshold are. -/
theorem findRareNFTs_no_stat (oneOfOne : Bool) (thr : ℚ)
    (a : TraitAnalysis) (n : NFT) (ty : String)
    (h : statOf a ty (traitValue n ty) = none) :
    (∀ d : RarityDetail, (ty, d) ∉ annotateNFT oneOfOne thr a n) ∧
    ((annotateNFT oneOfOne thr a n).any (fun p => p.2.rare) = true ↔
      ∃ p ∈ annotateNFT oneOfOne thr a n, p.1 ≠ ty ∧ p.2.rare = true) := by
  have hnot : ∀ d : RarityDetail, (ty, d) ∉ annotateNFT oneOfOne thr a n := by
    intro d hd
    unfold annotateNFT at hd
    rw [List.mem_filterMap] at hd
    obtain ⟨t, _, hf⟩ := hd
    cases hs : statOf a t (traitValue n t) with
    | none => rw [hs] at hf; cases hf
    | some s =>
      rw [hs] at hf
      have ht : t = ty := congrArg Prod.fst (Option.some_inj.mp hf)
      subst ht
      rw [h] at hs
      cases hs
  refine ⟨hnot, ?_⟩
  rw [List.any_eq_true]
  constructor
  · rintro ⟨p, hp, hr⟩
    refine ⟨p, hp, ?_, hr⟩
    intro hpty
    have hp2 : (p.1, p.2) ∈ annotateNFT oneOfOne thr a n := hp
    rw [hpty] at hp2
    exact hnot p.2 hp2
  · rintro ⟨p, hp, _, hr⟩
    exact ⟨p, hp, hr⟩

/-- C10 witness: a table whose background entry lacks the value of
nftA — no background entry is attached and rarity reduces to the other
trait-types. -/
theorem findRareNFTs_no_stat_witness :
    (∀ d : RarityDetail,
      ("bg", d) ∉ annotateNFT true 5 exAnalysisMissing nftA) ∧
    ((annotateNFT true 5 exAnalysisMissing nftA).any
        (fun p => p.2.rare) = true ↔
      ∃ p ∈ annotateNFT true 5 exAnalysisMissing nftA,
        p.1 ≠ "bg" ∧ p.2.rare = true) :=
  findRareNFTs_no_stat true 5 exAnalysisMissing nftA "bg" (by decide)

/-! ### Claim C2: seen-set monotonicity and dedup -/

/-- A mint in the seen set stays in it through the dedup loop. -/
theorem processRareList_mono :
    ∀ (rare : List NFT) (st : List String × List NFT) (x : String),
      x ∈ st.1 → x ∈ (processRareList st rare).1
  | [], _, _, h => h
  | n :: rest, st, x, h => by
    by_cases hm : n.mintAddress ∈ st.1
    · simp only [processRareList]
      rw [if_pos hm]
      exact processRareList_mono rest st x h
    · simp only [processRareList]
      rw [if_neg hm]
      exact processRareList_mono rest _ x (List.mem_append_left _ h)

/-- The dedup loop grows the seen set by exactly the mints of the
items it queues for notification, in order. -/
theorem processRareList_shape (seen : List String) :
    ∀ (rare : List NFT) (st : List String × List NFT),
      st.1 = seen ++ st.2.map (fun n => n.mintAddress) →
      (processRareList st rare).1 =
        seen ++ (processRareList st rare).2.map (fun n => n.mintAddress)
  | [], _, h => h
  | n :: rest, st, h => by
    by_cases hm : n.mintAddress ∈ st.1
    · simp only [processRareList]
      rw [if_pos hm]
      exact processRareList_shape seen rest st h
    · simp only [processRareList]
      rw [if_neg hm]
      refine processRareList_shape seen rest _ ?_
      simp [h]

/-- An item queued by the dedup loop either was queued before the loop
ran, or its mint was not in the seen set when the loop started. -/
theorem processRareList_new :
    ∀ (rare : List NFT) (st : List String × List NFT) (n : NFT),
      n ∈ (processRareList st rare).2 → n ∈ st.2 ∨ n.mintAddress ∉ st.1
  | [], _, _, h => Or.inl h
  | m :: rest, st, n, h => by
    by_cases hm : m.mintAddress ∈ st.1
    · simp only [processRareList] at h
      rw [if_pos hm] at h
      exact processRareList_new rest st n h
    · simp only [processRareList] at h
      rw [if_neg hm] at h
      rcases processRareList_new rest _ n h with h2 | h2
      · rcases List.mem_append.mp h2 with h3 | h3
        · exact Or.inl h3
        · have hnm : n = m := by simpa using h3
          subst hnm
          exact Or.inr hm
      · exact Or.inr (fun hh => h2 (List.mem_append_left _ hh))

/-- The seen set stays duplicate-free through the dedup loop. -/
theorem processRareList_nodup :
    ∀ (rare : List NFT) (st : List String × List NFT),
      st.1.Nodup → (processRareList st rare).1.Nodup
  | [], _, h => h
  | n :: rest, st, h => by
    by_cases hm : n.mintAddress ∈ st.1
    · simp only [processRareList]
      rw [if_pos hm]
      exact processRareList_nodup rest st h
    · simp only [processRareList]
      rw [if_neg hm]
      refine processRareList_nodup rest _ ?_
      simp [List.nodup_append, h, hm]

/-- Across a sequence of cycles the final seen set is the starting one
followed by every notified mint, and it stays duplicate-free. -/
theorem runCycles_spec :
    ∀ (cycles : List (List NFT)) (seen : List String),
      (runCycles seen cycles).1 =
        seen ++ ((runCycles seen cycles).2.map
          (fun b => b.map (fun n => n.mintAddress))).flatten ∧
      (seen.Nodup → (runCycles seen cycles).1.Nodup)
  | [], seen => by simp [runCycles]
  | c :: cs, seen => by
    obtain ⟨ih1, ih2⟩ := runCycles_spec cs (scanCycle seen c).1
    have hshape : (scanCycle seen c).1 =
        seen ++ (scanCycle seen c).2.map (fun n => n.mintAddress) :=
      processRareList_shape seen c (seen, []) (by simp)
    constructor
    · show (runCycles (scanCycle seen c).1 cs).1 =
        seen ++ (((scanCycle seen c).2 :: (runCycles (scanCycle seen c).1 cs).2).map
          (fun b => b.map (fun n => n.mintAddress))).flatten
      rw [ih1, List.map_cons, List.flatten_cons, ← List.append_assoc, ← hshape]
    · intro hn
      exact ih2 (processRareList_nodup c (seen, []) hn)

/-- C2: the seen set is monotonic — clearCache deletes only the
snapshot file and never the seen file; a mint in the seen set is still
in it after any cycle; a cycle grows the seen set by exactly the
notified mints; no notified item had its mint in the seen set when it
was processed; and across any sequence of cycles starting from a
duplicate-free seen set, the starting mints together with every
notified mint are pairwise distinct — the same mint is never notified
twice, within a cycle or across cycles. -/
theorem seenSet_monotone_dedup :
    (∀ (α : Type) (fs : CacheFs α),
      (clearCache fs).snapshotFile = none ∧
      (clearCache fs).seenFile = fs.seenFile) ∧
    (∀ (seen : List String) (rare : List NFT) (x : String),
      x ∈ seen → x ∈ (scanCycle seen rare).1) ∧
    (∀ (seen : List String) (rare : List NFT),
      (scanCycle seen rare).1 =
        seen ++ (scanCycle seen rare).2.map (fun n => n.mintAddress)) ∧
    (∀ (seen : List String) (rare : List NFT) (n : NFT),
      n ∈ (scanCycle seen rare).2 → n.mintAddress ∉ seen) ∧
    (∀ (seen : List String) (cycles : List (List NFT)),
      seen.Nodup →
      (seen ++ ((runCycles seen cycles).2.map
        (fun b => b.map (fun n => n.mintAddress))).flatten).Nodup) := by
  refine ⟨fun α fs => ⟨rfl, rfl⟩, ?_, ?_, ?_, ?_⟩
  · intro seen rare x hx
    exact processRareList_mono rare (seen, []) x hx
  · intro seen rare
    exact processRareList_shape seen rare (seen, []) (by simp)
  · intro seen rare n hn
    rcases processRareList_new rare (seen, []) n hn with h | h
    · cases h
    · exact h
  · intro seen cycles hn
    obtain ⟨h1, h2⟩ := runCycles_spec cycles seen
    rw [← h1]
    exact h2 hn

/-- C2 witness: starting from the seen set m0, the cycle with items m0
and m1 keeps m0 seen, notifies exactly m1, and the combined mint lists
stay duplicate-free. -/
theorem seenSet_monotone_dedup_witness :
    ((clearCache (α := Nat)
        { snapshotFile := some { mtimeMs := 0, content := some 7 },
          seenFile := some ["m0"] }).snapshotFile = none ∧
      (clearCache (α := Nat)
        { snapshotFile := some { mtimeMs := 0, content := some 7 },
          seenFile := some ["m0"] }).seenFile = some ["m0"]) ∧
    "m0" ∈ (scanCycle ["m0"] [nftM0, nftM1]).1 ∧
    "m1" ∉ (["m0"] : List String) ∧
    (["m0"] ++ ((runCycles ["m0"] [[nftM0, nftM1], [nftM1]]).2.map
      (fun b => b.map (fun n => n.mintAddress))).flatten).Nodup := by
  refine ⟨seenSet_monotone_dedup.1 Nat _, ?_, ?_, ?_⟩
  · exact seenSet_monotone_dedup.2.1 ["m0"] [nftM0, nftM1] "m0" (by decide)
  · exact seenSet_monotone_dedup.2.2.2.1 ["m0"] [nftM0, nftM1] nftM1 (by decide)
  · exact seenSet_monotone_dedup.2.2.2.2 ["m0"] [[nftM0, nftM1], [nftM1]]
      (by decide)

/-! ### Claim C4: scheduler single-flight -/

/-- One valid event preserves the scheduler invariant. -/
theorem schedStep_inv (s : Sched) (e : Ev) (hi : SchedInv s)
    (hc : e.isComplete = true → 0 < s.running) :
    SchedInv (schedStep s e) := by
  obtain ⟨h1, h2⟩ := hi
  cases e with
  | trigger =>
    by_cases hr : s.isScanRunning = true
    · simp only [schedStep, if_pos hr]
      exact ⟨h1, h2⟩
    · have h0 : s.running = 0 := by
        cases hn : s.running with
        | zero => rfl
        | succ k =>
          have hk : s.running = 1 := by omega
          exact absurd (h2.mpr hk) hr
      simp only [schedStep, if_neg hr]
      exact ⟨by simp [h0], by simp [h0]⟩
  | complete b =>
    have h0 : 0 < s.running := hc rfl
    simp only [schedStep]
    constructor
    · simp; omega
    · simp
      omega

/-- The invariant holds after any valid trace. -/
theorem schedExec_inv :
    ∀ (t : List Ev) (s : Sched), SchedInv s → ValidFrom s t →
      SchedInv (schedExec s t)
  | [], _, hi, _ => hi
  | e :: t, s, hi, hv =>
    schedExec_inv t (schedStep s e) (schedStep_inv s e hi hv.1) hv.2

/-- C4: at most one scan cycle ever executes — on every valid trace
from startup at most one cycle is running at any point; a trigger
firing while the flag is set only increments the dropped counter,
starting nothing; a completion, successful or after a caught error,
clears the flag; and a trigger arriving with the flag clear sets it
and starts exactly one new cycle. -/
theorem scheduler_single_flight :
    (∀ trace : List Ev, ValidFrom schedInit trace →
      (schedExec schedInit trace).running ≤ 1) ∧
    (∀ s : Sched, s.isScanRunning = true →
      schedStep s Ev.trigger = { s with dropped := s.dropped + 1 }) ∧
    (∀ (s : Sched) (b : Bool),
      (schedStep s (Ev.complete b)).isScanRunning = false) ∧
    (∀ s : Sched, s.isScanRunning = false →
      (schedStep s Ev.trigger).isScanRunning = true ∧
      (schedStep s Ev.trigger).started = s.started + 1) := by
  refine ⟨?_, ?_, ?_, ?_⟩
  · intro trace hv
    exact (schedExec_inv trace schedInit ⟨by simp [schedInit], by simp [schedInit]⟩ hv).1
  · intro s h
    simp [schedStep, h]
  · intro s b
    simp [schedStep]
  · intro s h
    constructor <;> simp [schedStep, h]

/-- C4 witness: on the trace trigger, trigger, completion, trigger the
second trigger is dropped while the first cycle runs, and afterwards
at most one cycle has ever been executing. -/
theorem scheduler_single_flight_witness :
    (schedExec schedInit exTrace).running ≤ 1 ∧
    schedStep { isScanRunning := true, running := 1, started := 1,
                dropped := 0 } Ev.trigger =
      { isScanRunning := true, running := 1, started := 1, dropped := 1 } ∧
    (schedStep schedInit (Ev.complete false)).isScanRunning = false ∧
    (schedStep schedInit Ev.trigger).isScanRunning = true ∧
    (schedStep schedInit Ev.trigger).started = 0 + 1 :=
  ⟨scheduler_single_flight.1 exTrace
      (by simp [exTrace, ValidFrom, schedStep, schedInit, Ev.isComplete]),
   scheduler_single_flight.2.1 _ rfl,
   scheduler_single_flight.2.2.1 schedInit false,
   (scheduler_single_flight.2.2.2 schedInit rfl).1,
   (scheduler_single_flight.2.2.2 schedInit rfl).2⟩

/-! ### Claim C7: cache expiry -/

/-- C7: loadFromCache returns the persisted snapshot exactly when
caching is enabled, the snapshot file exists, its age at read time is
within the expiry window, and it parses; in particular a snapshot
written at time T is absent when read after T plus the window and
present when read at or before it. -/
theorem loadFromCache_spec :
    (∀ (α : Type) (en : Bool) (hrs now : Nat) (fs : CacheFs α) (d : α),
      loadFromCache en hrs now fs = some d ↔
        en = true ∧ ∃ f, fs.snapshotFile = some f ∧
          now - f.mtimeMs ≤ hrs * 60 * 60 * 1000 ∧ f.content = some d) ∧
    (∀ (α : Type) (en : Bool) (hrs T now : Nat) (c : Option α)
      (sf : Option (List String)),
      T + hrs * 60 * 60 * 1000 < now →
      loadFromCache en hrs now
        { snapshotFile := some { mtimeMs := T, content := c },
          seenFile := sf } = none) ∧
    (∀ (α : Type) (hrs T now : Nat) (d : α) (sf : Option (List String)),
      now ≤ T + hrs * 60 * 60 * 1000 →
      loadFromCache true hrs now
        { snapshotFile := some { mtimeMs := T, content := some d },
          seenFile := sf } = some d) := by
  refine ⟨?_, ?_, ?_⟩
  · intro α en hrs now fs d
    cases en with
    | false => simp [loadFromCache]
    | true =>
      cases hf : fs.snapshotFile with
      | none => simp [loadFromCache, cacheExists, hf]
      | some f =>
        by_cases hage : now - f.mtimeMs ≤ hrs * 60 * 60 * 1000
        · have hc : cacheExists hrs now fs = true := by
            simp [cacheExists, hf]
            omega
          have hl : loadFromCache true hrs now fs = f.content := by
            simp [loadFromCache, hc, hf]
          rw [hl]
          constructor
          · intro hcon
            exact ⟨rfl, f, rfl, hage, hcon⟩
          · rintro ⟨-, f2, hf2, -, hcon⟩
            obtain rfl : f = f2 := Option.some_inj.mp hf2
            exact hcon
        · have hc : cacheExists hrs now fs = false := by
            simp [cacheExists, hf]
            omega
          have hl : loadFromCache true hrs now fs = none := by
            simp [loadFromCache, hc]
          rw [hl]
          constructor
          · intro h0
            cases h0
          · rintro ⟨-, f2, hf2, hage2, -⟩
            obtain rfl : f = f2 := Option.some_inj.mp hf2
            exact absurd hage2 hage
  · intro α en hrs T now c sf h
    have hc : cacheExists (α := α) hrs now
        { snapshotFile := some { mtimeMs := T, content := c },
          seenFile := sf } = false := by
      simp [cacheExists]
      omega
    cases en with
    | false => simp [loadFromCache]
    | true => simp [loadFromCache, hc]
  · intro α hrs T now d sf h
    have hc : cacheExists (α := α) hrs now
        { snapshotFile := some { mtimeMs := T, content := some d },
          seenFile := sf } = true := by
      simp [cacheExists]
      omega
    simp [loadFromCache, hc]

/-- C7 witness: with a one-hour window, a snapshot written at time 0 is
present when read at the window boundary and absent one millisecond
past it. -/
theorem loadFromCache_spec_witness :
    loadFromCache (α := Nat) true 1 3600001
      { snapshotFile := some { mtimeMs := 0, content := some 7 },
        seenFile := none } = none ∧
    loadFromCache (α := Nat) true 1 3600000
      { snapshotFile := some { mtimeMs := 0, content := some 7 },
        seenFile := none } = some 7 :=
  ⟨loadFromCache_spec.2.1 Nat true 1 0 3600001 (some 7) none (by norm_num),
   loadFromCache_spec.2.2 Nat 1 0 3600000 7 none (by norm_num)⟩

/-! ### Claim C5: error handling and retry policy -/

/-- C5 counterexample: the per-token fetch does not re-issue its
request after a 429 — against an endpoint that is rate limited once
and then ready to answer, the source returns null after the single
request, while the behaviour the claim describes returns the token. -/
theorem tokenFetch_no_retry_on_429 :
    getNFTMetadata (oracle429Then 0) = none ∧
    getNFTMetadataRetrySpec oracle429Then 2 0 = some tokenEx := by
  constructor
  · rfl
  · rfl

/-- C5 (amended): on a 429 the error handler sleeps 5000 ms and
signals retryable, and on any other failure it signals non-retryable
at once; the paginated listings loop re-issues the same offset after a
429 and stops with the records gathered so far on any other failure;
the single-record fetchers ignore the retryable signal and return null
on every failure, a 429 included. -/
theorem retry_policy :
    (∀ (e : ApiError) (r : AxiosResponse),
      e.response = some r → r.status = 429 →
      requestError e = (true, 5000)) ∧
    (∀ e : ApiError, e.response = none → requestError e = (false, 0)) ∧
    (∀ (e : ApiError) (r : AxiosResponse),
      e.response = some r → r.status ≠ 429 →
      requestError e = (false, 0)) ∧
    (∀ (oracle : Nat → Nat → FetchResult (List Listing))
      (fuel i off : Nat) (acc : List Listing) (e : ApiError)
      (r : AxiosResponse),
      oracle off i = FetchResult.err e →
      e.response = some r → r.status = 429 →
      runListings oracle (fuel + 1) i off acc =
        runListings oracle fuel (i + 1) off acc) ∧
    (∀ (oracle : Nat → Nat → FetchResult (List Listing))
      (fuel i off : Nat) (acc : List Listing) (e : ApiError),
      oracle off i = FetchResult.err e →
      (requestError e).1 = false →
      runListings oracle (fuel + 1) i off acc = some acc) ∧
    (∀ e : ApiError, getNFTMetadata (FetchResult.err e) = none) ∧
    (∀ e : ApiError, getCollectionInfo (FetchResult.err e) = none) ∧
    (∀ e : ApiError, getCollectionStats (FetchResult.err e) = none) := by
  have h429 : ∀ (e : ApiError) (r : AxiosResponse),
      e.response = some r → r.status = 429 →
      requestError e = (true, 5000) := by
    intro e r hr hs
    simp [requestError, hr, hs]
  refine ⟨h429, ?_, ?_, ?_, ?_, fun e => rfl, fun e => rfl, fun e => rfl⟩
  · intro e hr
    simp [requestError, hr]
  · intro e r hr hs
    simp [requestError, hr, hs]
  · intro oracle fuel i off acc e r ho hr hs
    have hf : (requestError e).1 = true := by rw [h429 e r hr hs]
    simp only [runListings, ho, hf, if_true]
  · intro oracle fuel i off acc e ho hf
    simp only [runListings, ho, hf]
    simp

/-- C5 witness: the 429 error sleeps 5 s and retries the same offset
against a listings endpoint that is rate limited once; a network error
stops the loop with the gathered records; the single fetchers return
null on failure. -/
theorem retry_policy_witness :
    requestError err429 = (true, 5000) ∧
    requestError errNet = (false, 0) ∧
    requestError err500 = (false, 0) ∧
    runListings oracleL 2 0 0 [] = runListings oracleL 1 1 0 [] ∧
    runListings (fun _ _ => FetchResult.err errNet) 1 0 0 [] = some [] ∧
    getNFTMetadata (FetchResult.err err429) = none ∧
    getCollectionInfo (FetchResult.err errNet) = none ∧
    getCollectionStats (FetchResult.err err500) = none :=
  ⟨retry_policy.1 err429 { status := 429, statusText := "Too Many Requests" }
      rfl rfl,
   retry_policy.2.1 errNet rfl,
   retry_policy.2.2.1 err500 { status := 500, statusText := "Server Error" }
      rfl (by decide),
   retry_policy.2.2.2.1 oracleL 1 0 0 [] err429
      { status := 429, statusText := "Too Many Requests" } rfl rfl rfl,
   retry_policy.2.2.2.2.1 (fun _ _ => FetchResult.err errNet) 0 0 0 [] errNet
      rfl rfl,
   retry_policy.2.2.2.2.2.1 err429,
   retry_policy.2.2.2.2.2.2.1 errNet,
   retry_policy.2.2.2.2.2.2.2 err500⟩

/-! ### Claim C6: retries are not capped -/

/-- Against an endpoint answering 429 forever, one loop step consumes
fuel and changes nothing else. -/
theorem runListings_always429 :
    ∀ (fuel i off : Nat) (acc : List Listing),
      runListings always429L fuel i off acc = none
  | 0, _, _, _ => rfl
  | fuel + 1, i, off, acc => by
    have hf : (requestError err429).1 = true := rfl
    simp only [runListings, always429L, hf, if_true]
    exact runListings_always429 fuel (i + 1) off acc

/-- C6: the number of 429-triggered retries per fetch is not capped —
when the remote endpoint answers every request with HTTP 429, the
listings loop re-issues the same request forever: no amount of fuel
makes getCollectionListings complete, so the fetch does not terminate. -/
theorem listings_unbounded_retries_on_429 :
    (∀ (fuel i off : Nat) (acc : List Listing),
      runListings always429L fuel i off acc = none) ∧
    (∀ fuel : Nat, getCollectionListings always429L fuel = none) :=
  ⟨runListings_always429,
   fun fuel => runListings_always429 fuel 0 0 []⟩

end RareSniper
